import Mathlib

/-!
Verification development for the cnc-forge CNC host controller.

The TypeScript sources are shallowly embedded: JavaScript numbers are
modelled as rationals with an explicit NaN value (`JsNum`), strings as
`List Char`, and the regular expressions used by the code as hand-rolled
scanners that reproduce the exact matching behaviour of the patterns in
question.  Stateful methods become explicit state-passing functions.
-/

set_option maxRecDepth 10000

/-- JavaScript number restricted to the values the embedded code can
produce: either an exact rational or NaN.  (The embedding idealises IEEE
doubles as rationals; every concrete value exercised here is exactly
representable.) -/
inductive JsNum where
  | nan : JsNum
  | num : ℚ → JsNum
deriving DecidableEq, Repr

namespace JsNum

/-- JavaScript truthiness of a number: NaN and 0 are falsy. -/
def truthy : JsNum → Bool
  | .nan => false
  | .num q => q != 0

/-- Comparison `lo <= v` as JavaScript evaluates it (false on NaN). -/
def geQ (v : JsNum) (lo : ℚ) : Bool :=
  match v with
  | .nan => false
  | .num q => lo ≤ q

/-- Comparison `v <= hi` as JavaScript evaluates it (false on NaN). -/
def leQ (v : JsNum) (hi : ℚ) : Bool :=
  match v with
  | .nan => false
  | .num q => q ≤ hi

/-- Comparison `v > b` as JavaScript evaluates it (false on NaN). -/
def gtQ (v : JsNum) (b : ℚ) : Bool :=
  match v with
  | .nan => false
  | .num q => b < q

/-- Addition of a plain rational to a JS number (NaN absorbs). -/
def addQ (v : JsNum) (q : ℚ) : JsNum :=
  match v with
  | .nan => .nan
  | .num p => .num (p + q)

/-- The JavaScript expression `v || 0`: NaN and 0 collapse to 0. -/
def orZero : Option JsNum → ℚ
  | some (.num q) => q
  | _ => 0

/-- Strict equality `===` on possibly-undefined numbers: undefined equals
undefined, NaN equals nothing (including itself). -/
def strictEqb : Option JsNum → Option JsNum → Bool
  | none, none => true
  | some (.num p), some (.num q) => p == q
  | _, _ => false

end JsNum

/-- Character class `[\d.-]` used by the coordinate/feed regexes. -/
def numChar (c : Char) : Bool := c.isDigit || c == '.' || c == '-'

/-- Character class `\w` (ASCII letters, digits, underscore). -/
def wordChar (c : Char) : Bool := c.isAlpha || c.isDigit || c == '_'

/-- Digit value of an ASCII digit character. -/
def digitVal (c : Char) : ℕ := c.toNat - 48

/-- Natural number denoted by a digit string (most significant first). -/
def digitsToNat (ds : List Char) : ℕ := ds.foldl (fun a c => 10 * a + digitVal c) 0

/-- Value of a fraction-digit string, e.g. `25` denotes `0.25`. -/
def fracValue (ds : List Char) : ℚ := (digitsToNat ds : ℚ) / ((10 : ℚ) ^ ds.length)

/-- Mantissa of `parseFloat`: longest prefix of the form `digits`,
`digits.digits` or `.digits`; returns its value and the unconsumed rest,
or `none` when no digits are found at the start. -/
def parseMantissa (cs : List Char) : Option (ℚ × List Char) :=
  let ip := cs.takeWhile Char.isDigit
  let r1 := cs.dropWhile Char.isDigit
  match r1 with
  | '.' :: r2 =>
    let fp := r2.takeWhile Char.isDigit
    let r3 := r2.dropWhile Char.isDigit
    if ip.isEmpty && fp.isEmpty then none
    else some ((digitsToNat ip : ℚ) + fracValue fp, r3)
  | _ => if ip.isEmpty then none else some ((digitsToNat ip : ℚ), r1)

/-- Exponent digits following `e`/`E` and an optional sign; multiplies the
mantissa accordingly, or leaves it alone when no digits follow. -/
def applyExpDigits (q : ℚ) (neg : Bool) (cs : List Char) : ℚ :=
  let ds := cs.takeWhile Char.isDigit
  if ds.isEmpty then q
  else if neg then q / ((10 : ℚ) ^ digitsToNat ds)
  else q * ((10 : ℚ) ^ digitsToNat ds)

/-- Optional exponent part of `parseFloat`. -/
def applyExponent (q : ℚ) : List Char → ℚ
  | 'e' :: '+' :: r => applyExpDigits q false r
  | 'e' :: '-' :: r => applyExpDigits q true r
  | 'e' :: r => applyExpDigits q false r
  | 'E' :: '+' :: r => applyExpDigits q false r
  | 'E' :: '-' :: r => applyExpDigits q true r
  | 'E' :: r => applyExpDigits q false r
  | _ => q

/-- JavaScript `parseFloat`: leading whitespace skipped, optional sign,
decimal mantissa, optional exponent; trailing garbage ignored; NaN when
no number can be read.  (The `Infinity` literal never arises from the
upper-cased inputs fed to it here.) -/
def parseFloatJs (cs : List Char) : JsNum :=
  let cs := cs.dropWhile Char.isWhitespace
  match cs with
  | '-' :: r =>
    match parseMantissa r with
    | none => .nan
    | some (q, rest) => .num (-(applyExponent q rest))
  | '+' :: r =>
    match parseMantissa r with
    | none => .nan
    | some (q, rest) => .num (applyExponent q rest)
  | _ =>
    match parseMantissa cs with
    | none => .nan
    | some (q, rest) => .num (applyExponent q rest)

/-- JavaScript `parseInt(value, 10)`: leading whitespace, optional sign,
digit prefix; NaN when no digits. -/
def parseIntJs (cs : List Char) : JsNum :=
  let cs := cs.dropWhile Char.isWhitespace
  match cs with
  | '-' :: r =>
    let ds := r.takeWhile Char.isDigit
    if ds.isEmpty then .nan else .num (-(digitsToNat ds : ℚ))
  | '+' :: r =>
    let ds := r.takeWhile Char.isDigit
    if ds.isEmpty then .nan else .num ((digitsToNat ds : ℚ))
  | _ =>
    let ds := cs.takeWhile Char.isDigit
    if ds.isEmpty then .nan else .num ((digitsToNat ds : ℚ))

/-- First match of the regex `L([\d.-]+)` in a string, for a letter `L`:
scan left to right for an occurrence of the letter followed by at least
one `[\d.-]` character and capture the maximal such run. -/
def capAfter (a : Char) : List Char → Option (List Char)
  | [] => none
  | c :: rest =>
    if c == a && (match rest with | [] => false | d :: _ => numChar d) then
      some (rest.takeWhile numChar)
    else capAfter a rest

/-- Substring containment, the semantics of JavaScript `includes`. -/
def containsSeg (needle : List Char) : List Char → Bool
  | [] => needle.isEmpty
  | c :: rest => needle.isPrefixOf (c :: rest) || containsSeg needle rest

/-- Split on a single separator character, keeping empty fields, the
semantics of JavaScript `split(sep)` for a one-character separator. -/
def splitOnChar (sep : Char) : List Char → List (List Char)
  | [] => [[]]
  | c :: rest =>
    match splitOnChar sep rest with
    | [] => [[]]
    | h :: t => if c == sep then [] :: h :: t else (c :: h) :: t

/-- Split on a single space character (JavaScript `split(' ')`). -/
def splitOnSpace (cs : List Char) : List (List Char) := splitOnChar ' ' cs

/-- Whitespace trim on character lists (JavaScript `trim`). -/
def trimChars (cs : List Char) : List Char :=
  ((cs.dropWhile Char.isWhitespace).reverse.dropWhile Char.isWhitespace).reverse

/-- Upper-cased character data of a string (`toUpperCase` on ASCII). -/
def upperChars (s : String) : List Char := s.data.map Char.toUpper

/-- Characters of `s.trim().toUpperCase()`. -/
def trimUpper (s : String) : List Char := (trimChars s.data).map Char.toUpper

/-! ## SafetySystem (src `SafetySystem.ts`) -/

namespace SafetySystem

/-- Reason tags for the validator outcomes; the source attaches message
strings, which carry no further information relevant to the claims. -/
inductive VErr where
  | emptyCommand : VErr
  | softLimits : VErr
  | feedRate : VErr
  | jogFeedRate : VErr
deriving DecidableEq, Repr

/-- `ValidationResult` of the source: validity flag, optional error,
and whether a warning was attached. -/
structure ValidationResult where
  isValid : Bool
  err : Option VErr := none
  warn : Bool := false
deriving DecidableEq, Repr

/-- Position triple as produced by `parseCoordinates` (missing axes
default to 0; a malformed numeric token yields NaN). -/
structure P3 where
  x : JsNum
  y : JsNum
  z : JsNum
deriving DecidableEq, Repr

/-- Default soft limits of the source: x,y in [0,300], z in [0,100]. -/
def xMinL : ℚ := 0
def xMaxL : ℚ := 300
def yMinL : ℚ := 0
def yMaxL : ℚ := 300
def zMinL : ℚ := 0
def zMaxL : ℚ := 100

/-- Speed limits of the source. -/
def maxFeedRateL : ℚ := 3000
def maxJogRateL : ℚ := 1000

/-- The unsafe-but-legal command list of the source. -/
def unsafeCommandList : List (List Char) :=
  ["M3".data, "M4".data, "M5".data, "M7".data, "M8".data, "M9".data,
   "G38.2".data, "G38.3".data, "G38.4".data, "G38.5".data]

/-- Extraction of one axis value by `parseCoordinates`: first regex match
of `A([\d.-]+)`, default 0 when the regex does not match. -/
def coordOf (a : Char) (cs : List Char) : JsNum :=
  match capAfter a cs with
  | none => .num 0
  | some tok => parseFloatJs tok

/-- `parseCoordinates` of the source. -/
def parseCoordinates (cs : List Char) : P3 :=
  { x := coordOf 'X' cs, y := coordOf 'Y' cs, z := coordOf 'Z' cs }

/-- `parseFeedRate` of the source: `null` (here `none`) when no `F`
field matches. -/
def parseFeedRate (cs : List Char) : Option JsNum :=
  (capAfter 'F' cs).map parseFloatJs

/-- `checkSoftLimits` of the source (NaN fails every comparison). -/
def checkSoftLimits (p : P3) : Bool :=
  p.x.geQ xMinL && p.x.leQ xMaxL &&
  p.y.geQ yMinL && p.y.leQ yMaxL &&
  p.z.geQ zMinL && p.z.leQ zMaxL

/-- `validateMovementCommand` of the source: soft limits first, then the
feed cap, where the feed check fires only for a truthy parsed feed. -/
def validateMovementCommand (cs : List Char) : ValidationResult :=
  let coords := parseCoordinates cs
  if !(checkSoftLimits coords) then
    { isValid := false, err := some .softLimits }
  else
    match parseFeedRate cs with
    | some f =>
      if f.truthy && f.gtQ maxFeedRateL then
        { isValid := false, err := some .feedRate }
      else
        { isValid := true }
    | none => { isValid := true }

/-- Accumulator state of the `validateJogCommand` parsing loop. -/
structure JogParse where
  x : JsNum := .num 0
  y : JsNum := .num 0
  z : JsNum := .num 0
  feed : JsNum := .num 0
deriving DecidableEq, Repr

/-- One step of the jog parsing loop over the space-separated parts. -/
def jogStepPart (st : JogParse) (part : List Char) : JogParse :=
  match part with
  | 'X' :: v => { st with x := parseFloatJs v }
  | 'Y' :: v => { st with y := parseFloatJs v }
  | 'Z' :: v => { st with z := parseFloatJs v }
  | 'F' :: v => { st with feed := parseFloatJs v }
  | _ => st

/-- Coordinate/feed fields parsed by `validateJogCommand` from the text
after the `$J=` marker. -/
def jogParse (cs : List Char) : JogParse :=
  (splitOnSpace (cs.drop 4)).foldl jogStepPart {}

/-- `validateJogCommand` of the source: only the jog feed cap is
checked. -/
def validateJogCommand (cs : List Char) : ValidationResult :=
  let st := jogParse cs
  if st.feed.gtQ maxJogRateL then
    { isValid := false, err := some .jogFeedRate }
  else
    { isValid := true }

/-- Prefix dispatch `G0`/`G1`/`G2`/`G3` used by `validateCommand` and
by the controller. -/
def startsG0123 (cs : List Char) : Bool :=
  "G0".data.isPrefixOf cs || "G1".data.isPrefixOf cs ||
  "G2".data.isPrefixOf cs || "G3".data.isPrefixOf cs

/-- `validateCommand` of the source: empty check, unsafe-command warn,
movement validation, jog validation, otherwise accept. -/
def validateCommand (command : String) : ValidationResult :=
  let trimmed := trimUpper command
  if trimmed.isEmpty then
    { isValid := false, err := some .emptyCommand }
  else if unsafeCommandList.any (fun u => u.isPrefixOf trimmed) then
    { isValid := true, warn := true }
  else if startsG0123 trimmed then
    validateMovementCommand trimmed
  else if "$J=".data.isPrefixOf trimmed then
    validateJogCommand trimmed
  else
    { isValid := true }

/-- Stated from the claim: some extracted coordinate lies outside its
closed soft-limit interval, or a present F feed rate exceeds
`max_feed_rate`.  To be compared with the validator's own verdict. -/
def specMovementViolation (cs : List Char) : Prop :=
  (∃ q : ℚ, coordOf 'X' cs = .num q ∧ (q < xMinL ∨ xMaxL < q)) ∨
  (∃ q : ℚ, coordOf 'Y' cs = .num q ∧ (q < yMinL ∨ yMaxL < q)) ∨
  (∃ q : ℚ, coordOf 'Z' cs = .num q ∧ (q < zMinL ∨ zMaxL < q)) ∨
  (∃ q : ℚ, parseFeedRate cs = some (.num q) ∧ maxFeedRateL < q)

end SafetySystem

/-! ## Controller (src `CncController.ts`) -/

namespace Controller

/-- Modal distance mode tracked by the controller. -/
inductive Mode where
  | G90 : Mode
  | G91 : Mode
deriving DecidableEq, Repr

/-- `Partial IPosition`: per-axis fields that may be absent
(`none` models a key that was never assigned). -/
structure PartialPos where
  x : Option JsNum := none
  y : Option JsNum := none
  z : Option JsNum := none
deriving DecidableEq, Repr

/-- Whether the partial position has at least one assigned key
(`Object.keys(positionChange).length > 0`). -/
def PartialPos.hasAny (p : PartialPos) : Bool :=
  p.x.isSome || p.y.isSome || p.z.isSome

/-- Axis fields extracted by `calculateExpectedPositionChange` from an
upper-cased command. -/
def extractAxes (upper : List Char) : PartialPos :=
  { x := (capAfter 'X' upper).map parseFloatJs
    y := (capAfter 'Y' upper).map parseFloatJs
    z := (capAfter 'Z' upper).map parseFloatJs }

/-- `calculateExpectedPositionChange` of the source: commands whose
upper-cased text starts with `G0`/`G1`/`G2`/`G3` or with `$J=` have any
`X`/`Y`/`Z` fields extracted; the result is `undefined` (`none`) when no
field matched, and for every other command. -/
def calculateExpectedPositionChange (command : String) : Option PartialPos :=
  let upper := upperChars command
  if SafetySystem.startsG0123 upper || "$J=".data.isPrefixOf upper then
    let p := extractAxes upper
    if p.hasAny then some p else none
  else
    none

/-- Controller state relevant to command accounting. -/
structure CtrlState where
  mode : Mode := .G90
  ex : JsNum := .num 0
  ey : JsNum := .num 0
  ez : JsNum := .num 0
deriving DecidableEq, Repr

/-- The initial controller state: absolute mode, expected position 0. -/
def initState : CtrlState := {}

/-- Modal-mode tracking of `sendCommand`: substring search on the
upper-cased command text, `G90` checked first, then `G91` (so `G91`
takes precedence when both occur). -/
def modeAfter (m : Mode) (upper : List Char) : Mode :=
  let m1 := if containsSeg "G90".data upper then Mode.G90 else m
  if containsSeg "G91".data upper then Mode.G91 else m1

/-- Additive expected-position update (the `$J=` and `G91` branches of
`sendCommand`): each field collapses through `|| 0`. -/
def applyAdd (st : CtrlState) (m2 : Mode) (ch : PartialPos) : CtrlState :=
  { mode := m2
    ex := st.ex.addQ (JsNum.orZero ch.x)
    ey := st.ey.addQ (JsNum.orZero ch.y)
    ez := st.ez.addQ (JsNum.orZero ch.z) }

/-- Replacing expected-position update (the `G90` branch of
`sendCommand`): present fields replace via `??`, absent fields keep the
previous component. -/
def applyAbs (st : CtrlState) (m2 : Mode) (ch : PartialPos) : CtrlState :=
  { mode := m2
    ex := ch.x.getD st.ex
    ey := ch.y.getD st.ey
    ez := ch.z.getD st.ez }

/-- Post-validation state effect of `sendCommand`: update the modal
mode, then the expected position using the updated mode (the source
mutates `positioningMode` before computing the update). -/
def stepCore (st : CtrlState) (command : String) : CtrlState :=
  let upper := upperChars command
  let m2 := modeAfter st.mode upper
  match calculateExpectedPositionChange command with
  | none => { st with mode := m2 }
  | some ch =>
    if "$J=".data.isPrefixOf upper then applyAdd st m2 ch
    else if m2 = .G90 then applyAbs st m2 ch
    else applyAdd st m2 ch

/-- `sendCommand` of the source, restricted to its synchronous state
effect on an accepted and successfully executed command; `none` models
the safety-violation throw. -/
def sendCommandStep (st : CtrlState) (command : String) : Option CtrlState :=
  if (SafetySystem.validateCommand command).isValid then some (stepCore st command)
  else none

/-- Least number of decimal fraction digits that writes `q` exactly,
when at most 20 suffice. -/
def decExp (q : ℚ) : Option ℕ :=
  (List.range 21).find? (fun k => (q * (10 : ℚ) ^ k).den == 1)

/-- Decimal digit string of a rational with exactly `k` fraction
digits. -/
def ratDigits (q : ℚ) (k : ℕ) : String :=
  let n := (q * (10 : ℚ) ^ k).num.natAbs
  let sign := if q < 0 then "-" else ""
  if k = 0 then sign ++ toString n
  else
    let ip := n / 10 ^ k
    let fp := n % 10 ^ k
    let fpStr := toString fp
    let pad := String.mk (List.replicate (k - fpStr.length) '0')
    sign ++ toString ip ++ "." ++ pad ++ fpStr

/-- JavaScript default number-to-string conversion, modelled for the
plain-decimal range (|q| between 1e-6 and 1e21, or 0); outside it
JavaScript switches to exponent notation, which no input here uses. -/
def jsNumToString (q : ℚ) : Option String :=
  if q = 0 then some "0"
  else if |q| < 1 / 1000000 ∨ (10 : ℚ) ^ 21 ≤ |q| then none
  else (decExp q).map (ratDigits q)

/-- JavaScript `Array.join(' ')`. -/
def joinSpace (l : List String) : String :=
  match l with
  | [] => ""
  | h :: t => t.foldl (fun a s => a ++ " " ++ s) h

/-- `buildJogCommand` of `JoggingSystem.ts`: axis fields for the defined
axes in X, Y, Z order, then the feed; errors (`none`) when no axis was
given, and is undefined here when a number falls outside the modelled
formatting range. -/
def buildJogCommand (ax ay az : Option ℚ) (feed : ℚ) : Option String :=
  let parts := [ax.map (fun v => (jsNumToString v).map (fun s => "X" ++ s)),
                ay.map (fun v => (jsNumToString v).map (fun s => "Y" ++ s)),
                az.map (fun v => (jsNumToString v).map (fun s => "Z" ++ s))].reduceOption
  if parts.isEmpty then none
  else
    match parts.allSome, jsNumToString feed with
    | some axisCmds, some fs =>
      some ("$J=G91 " ++ joinSpace axisCmds ++ " F" ++ fs)
    | _, _ => none

/-- `jog` of the source (`JoggingSystem.jog`): build the `$J=G91 ...`
line and send it through `sendCommand`. -/
def jogStep (st : CtrlState) (ax ay az : Option ℚ) (feed : ℚ) : Option CtrlState :=
  (buildJogCommand ax ay az feed).bind (sendCommandStep st)

/-- The first whitespace-separated word of the trimmed, upper-cased
command text; used to state what a G0/G1/G2/G3 motion line is. -/
def firstWord (s : String) : List Char :=
  (trimUpper s).takeWhile (fun c => !c.isWhitespace)

/-- Modelled from the spec: a command line is a G0/G1/G2/G3 motion line
when its first word is one of those G-codes (allowing a leading zero as
in `G01`). -/
def specIsMotionLine (s : String) : Bool :=
  ["G0".data, "G1".data, "G2".data, "G3".data,
   "G00".data, "G01".data, "G02".data, "G03".data].contains (firstWord s)

end Controller

/-! ## ProtocolCodec: GRBL status parsing

Two revisions exist in the tree: `parseGrblStatus` of the main
controller (`src/core/.../CncController.ts`) with its two fixed-shape
regexes, and the legacy revision with a single regex whose `WPos` and
`F` parts are optional. -/

namespace Codec

/-- Decoded status report: the state word, the three MPos coordinate
values and the feed (absent when the legacy regex captured no `F`). -/
structure GrblStatus where
  state : List Char
  x : JsNum
  y : JsNum
  z : JsNum
  feed : Option JsNum
deriving DecidableEq, Repr

/-- Raw capture groups of a status regex match, before `parseFloat`. -/
structure RawStatus where
  state : List Char
  tx : List Char
  ty : List Char
  tz : List Char
  tf : Option (List Char)
deriving DecidableEq, Repr

/-- The `parseFloat` application the source performs on each captured
group. -/
def toStatus (r : RawStatus) : GrblStatus :=
  { state := r.state, x := parseFloatJs r.tx, y := parseFloatJs r.ty,
    z := parseFloatJs r.tz, feed := r.tf.map parseFloatJs }

/-- Consume an exact literal, returning the rest. -/
def litAfter (lit : List Char) (cs : List Char) : Option (List Char) :=
  if lit.isPrefixOf cs then some (cs.drop lit.length) else none

/-- Consume a nonempty maximal run of characters in a class, returning
the run and the rest (greedy `+`, sound here because every following
literal starts outside the class). -/
def classRun (p : Char → Bool) (cs : List Char) : Option (List Char × List Char) :=
  let run := cs.takeWhile p
  if run.isEmpty then none else some (run, cs.dropWhile p)

/-- One `[\d.-]+,` component of an MPos/WPos triple. -/
def tokComma (cs : List Char) : Option (List Char × List Char) := do
  let (t, r) ← classRun numChar cs
  let r2 ← litAfter [','] r
  pure (t, r2)

/-- Match of the main regex
`<(\w+)\|MPos:([\d.-]+),([\d.-]+),([\d.-]+)\|WPos:([\d.-]+),([\d.-]+),([\d.-]+)\|F:([\d.-]+)>`
anchored at the start of the given suffix. -/
def mainPatternAt (cs : List Char) : Option RawStatus := do
  let r0 ← litAfter ['<'] cs
  let (st, r1) ← classRun wordChar r0
  let r2 ← litAfter "|MPos:".data r1
  let (t1, r3) ← tokComma r2
  let (t2, r4) ← tokComma r3
  let (t3, r5) ← classRun numChar r4
  let r6 ← litAfter "|WPos:".data r5
  let (_, r7) ← tokComma r6
  let (_, r8) ← tokComma r7
  let (_, r9) ← classRun numChar r8
  let r10 ← litAfter "|F:".data r9
  let (tf, r11) ← classRun numChar r10
  let _ ← litAfter ['>'] r11
  pure { state := st, tx := t1, ty := t2, tz := t3, tf := some tf }

/-- Match of the alternative regex
`<(\w+)\|MPos:([\d.-]+),([\d.-]+),([\d.-]+)\|FS:([\d.-]+),([\d.-]+)>`
anchored at the start of the given suffix. -/
def altPatternAt (cs : List Char) : Option RawStatus := do
  let r0 ← litAfter ['<'] cs
  let (st, r1) ← classRun wordChar r0
  let r2 ← litAfter "|MPos:".data r1
  let (t1, r3) ← tokComma r2
  let (t2, r4) ← tokComma r3
  let (t3, r5) ← classRun numChar r4
  let r6 ← litAfter "|FS:".data r5
  let (tf, r7) ← tokComma r6
  let (_, r8) ← classRun numChar r7
  let _ ← litAfter ['>'] r8
  pure { state := st, tx := t1, ty := t2, tz := t3, tf := some tf }

/-- Match of the legacy regex
`<(\w+)\|MPos:([\d.-]+),([\d.-]+),([\d.-]+)\|(?:WPos:[\d.-]+,[\d.-]+,[\d.-]+)?\|?(?:F:([\d.-]+))?`
anchored at the start of the given suffix; the optional groups are
greedy, and nothing mandatory follows them, so greedy linear matching is
exact. -/
def legacyPatternAt (cs : List Char) : Option RawStatus := do
  let r0 ← litAfter ['<'] cs
  let (st, r1) ← classRun wordChar r0
  let r2 ← litAfter "|MPos:".data r1
  let (t1, r3) ← tokComma r2
  let (t2, r4) ← tokComma r3
  let (t3, r5) ← classRun numChar r4
  let r6 ← litAfter ['|'] r5
  let r7 :=
    match (do
      let w0 ← litAfter "WPos:".data r6
      let (_, w1) ← tokComma w0
      let (_, w2) ← tokComma w1
      let (_, w3) ← classRun numChar w2
      pure w3 : Option (List Char)) with
    | some w => w
    | none => r6
  let r8 := match litAfter ['|'] r7 with | some v => v | none => r7
  let tf :=
    match (do
      let f0 ← litAfter "F:".data r8
      let (t, _) ← classRun numChar f0
      pure t : Option (List Char)) with
    | some t => some t
    | none => none
  pure { state := st, tx := t1, ty := t2, tz := t3, tf := tf }

/-- Unanchored regex search: try the pattern at every start position,
leftmost match first. -/
def scanFor {a : Type} (f : List Char → Option a) : List Char → Option a
  | [] => f []
  | c :: rest =>
    match f (c :: rest) with
    | some r => some r
    | none => scanFor f rest

/-- `parseGrblStatus` of the main controller: the fixed
MPos/WPos/F regex, then the MPos/FS alternative; `none` models the
`Cannot parse status` throw. -/
def parseGrblStatus (response : String) : Option GrblStatus :=
  match scanFor mainPatternAt response.data with
  | some r => some (toStatus r)
  | none => (scanFor altPatternAt response.data).map toStatus

/-- `parseGrblStatus` of the legacy controller revision, with optional
WPos and F parts. -/
def parseGrblStatusLegacy (response : String) : Option GrblStatus :=
  (scanFor legacyPatternAt response.data).map toStatus

end Codec

/-! ## GCodeParser (src `GCodeParser.ts`) -/

namespace GCodeParser

/-- Insert-or-update preserving first-occurrence key order, the
behaviour of JavaScript object property assignment. -/
def assocUpsert {α β : Type} [DecidableEq α] (k : α) (v : β) : List (α × β) → List (α × β)
  | [] => [(k, v)]
  | (k2, v2) :: rest =>
    if k2 = k then (k, v) :: rest else (k2, v2) :: assocUpsert k v rest

/-- A parsed G-code block.  Error and warning message strings of the
source are represented by tags elsewhere; `coordinates`, `modalGroups`
and `parameters` are association lists in JavaScript property order. -/
structure GCodeBlock where
  lineNumber : ℕ
  original : String
  code : String
  gCode : Option JsNum := none
  mCode : Option JsNum := none
  modalGroups : List (ℕ × String) := []
  coordinates : List (Char × JsNum) := []
  feedRate : Option JsNum := none
  spindleSpeed : Option JsNum := none
  toolNumber : Option JsNum := none
  parameters : List (Char × JsNum) := []
  isValid : Bool := true
deriving DecidableEq, Repr

/-- Parser error tags (one per error message of the source). -/
inductive PErr where
  | invalidFeedRate : PErr
  | needsCoordinates : PErr
  | needsEndpoint : PErr
  | needsIJR : PErr
  | needsZ : PErr
  | needsF : PErr
deriving DecidableEq, Repr

/-- Parser warning tags relevant to single-line parsing. -/
inductive PWarn where
  | unknownWord : PWarn
  | unsupportedM : PWarn
  | highFeedRate : PWarn
deriving DecidableEq, Repr

/-- Modal-group label `G<n>` for an integer-valued G-code. -/
def modalLabel (q : ℚ) : String := "G" ++ toString q.num

/-- `parseGCommand` of the source: `parseInt(value, 10)` (so `38.2`
truncates to `38`), then modal-group bookkeeping, then `gCode` is set. -/
def parseGCommand (value : List Char) (b : GCodeBlock) : GCodeBlock :=
  let gc := parseIntJs value
  let b2 :=
    match gc with
    | .num q =>
      if [(0 : ℚ), 1, 2, 3, 38].contains q then
        { b with modalGroups := assocUpsert 1 (modalLabel q) b.modalGroups }
      else if [(17 : ℚ), 18, 19].contains q then
        { b with modalGroups := assocUpsert 3 (modalLabel q) b.modalGroups }
      else if [(20 : ℚ), 21].contains q then
        { b with modalGroups := assocUpsert 6 (modalLabel q) b.modalGroups }
      else if [(90 : ℚ), 91].contains q then
        { b with modalGroups := assocUpsert 7 (modalLabel q) b.modalGroups }
      else if [(90.1 : ℚ), 91.1].contains q then
        { b with modalGroups := assocUpsert 8 (modalLabel q) b.modalGroups }
      else if [(93 : ℚ), 94].contains q then
        { b with modalGroups := assocUpsert 13 (modalLabel q) b.modalGroups }
      else b
    | .nan => b
  { b2 with gCode := some gc }

/-- M-codes accepted without a warning. -/
def supportedMCommands : List ℚ := [0, 1, 2, 3, 4, 5, 6, 7, 8, 9, 30]

/-- Truthiness of a looked-up JavaScript property that may be absent. -/
def truthyLookup {α : Type} [DecidableEq α] (k : α) (ps : List (α × JsNum)) : Bool :=
  match ps.lookup k with
  | some v => v.truthy
  | none => false

/-- State threaded through the word loop of `parseLine`. -/
structure LineAcc where
  block : GCodeBlock
  errors : List (ℕ × PErr) := []
  warnings : List (ℕ × PWarn) := []

/-- Handling of one word by the `parseLine` switch. -/
def processWord (ln : ℕ) (acc : LineAcc) (w : List Char) : LineAcc :=
  match w with
  | [] => acc
  | c :: value =>
    let letter := c.toUpper
    if letter = 'G' then
      { acc with block := parseGCommand value acc.block }
    else if letter = 'M' then
      let mc := parseIntJs value
      let warn :=
        match mc with
        | .num q => !(supportedMCommands.contains q)
        | .nan => true
      { acc with
        block := { acc.block with mCode := some mc }
        warnings := acc.warnings ++ if warn then [(ln, PWarn.unsupportedM)] else [] }
    else if ['X', 'Y', 'Z', 'A', 'B', 'C'].contains letter then
      { acc with block := { acc.block with
          coordinates := assocUpsert letter.toLower (parseFloatJs value) acc.block.coordinates } }
    else if letter = 'F' then
      let f := parseFloatJs value
      { acc with
        block := { acc.block with feedRate := some f }
        errors := acc.errors ++ (if f.leQ 0 then [(ln, PErr.invalidFeedRate)] else [])
        warnings := acc.warnings ++ (if f.gtQ 10000 then [(ln, PWarn.highFeedRate)] else []) }
    else if letter = 'S' then
      { acc with block := { acc.block with spindleSpeed := some (parseFloatJs value) } }
    else if letter = 'T' then
      { acc with block := { acc.block with toolNumber := some (parseIntJs value) } }
    else if ['I', 'J', 'K', 'P', 'Q', 'R'].contains letter then
      { acc with block := { acc.block with
          parameters := assocUpsert letter (parseFloatJs value) acc.block.parameters } }
    else
      { acc with warnings := acc.warnings ++ [(ln, PWarn.unknownWord)] }

/-- `validateBlock` of the source.  The `!block.coordinates` test of the
G2/G3 endpoint branch is always false in the source because
`coordinates` is initialised to an object, so that error is never
recorded; likewise `block.gCode === 38.2` is always false because
`parseInt` truncated the value to 38, so the probing branch is dead
(its transcription below keeps the source comparisons verbatim). -/
def validateBlock (b : GCodeBlock) : GCodeBlock × List (ℕ × PErr) :=
  let (b, errs) :=
    if (b.gCode == some (JsNum.num 0) || b.gCode == some (JsNum.num 1)) &&
        b.coordinates.isEmpty then
      ({ b with isValid := false }, [(b.lineNumber, PErr.needsCoordinates)])
    else (b, [])
  let (b, errs) :=
    if b.gCode == some (JsNum.num 2) || b.gCode == some (JsNum.num 3) then
      if !(truthyLookup 'I' b.parameters || truthyLookup 'J' b.parameters ||
           truthyLookup 'R' b.parameters) then
        ({ b with isValid := false }, errs ++ [(b.lineNumber, PErr.needsIJR)])
      else (b, errs)
    else (b, errs)
  if b.gCode == some (JsNum.num (38.2 : ℚ)) then
    let (b, errs) :=
      if !(truthyLookup 'z' b.coordinates) then
        ({ b with isValid := false }, errs ++ [(b.lineNumber, PErr.needsZ)])
      else (b, errs)
    if !(match b.feedRate with | some f => f.truthy | none => false) then
      ({ b with isValid := false }, errs ++ [(b.lineNumber, PErr.needsF)])
    else (b, errs)
  else (b, errs)

/-- Drop everything from the first unclosed-comment-free `;` onwards is
handled separately; this removes every non-greedy `\(.*?\)` match.  The
fuel argument starts at the list length, which one-character-per-step
consumption never exhausts. -/
def skipToClose (cs : List Char) : List Char :=
  (cs.dropWhile (fun c => c != ')')).drop 1

/-- Removal of all `(...)` comments (regex `\(.*?\)`, global). -/
def removeParensGo : ℕ → List Char → List Char
  | 0, cs => cs
  | _ + 1, [] => []
  | n + 1, c :: rest =>
    if c == '(' && rest.contains ')' then removeParensGo n (skipToClose rest)
    else c :: removeParensGo n rest

/-- `removeComments` of the source: strip `(...)` comments, cut at the
first `;`, trim. -/
def removeComments (line : List Char) : List Char :=
  trimChars ((removeParensGo line.length line).takeWhile (fun c => c != ';'))

/-- Split into words at whitespace runs (regex `\s+`), the word loop
skipping empty words. -/
def wordsOfGo (cur : List Char) : List Char → List (List Char)
  | [] => if cur.isEmpty then [] else [cur.reverse]
  | c :: rest =>
    if c.isWhitespace then
      if cur.isEmpty then wordsOfGo [] rest
      else cur.reverse :: wordsOfGo [] rest
    else wordsOfGo (c :: cur) rest

/-- Words of a code line. -/
def wordsOf (cs : List Char) : List (List Char) := wordsOfGo [] cs

/-- `parseLine` of the source: comment removal, the word switch, then
block validation; `none` when the line is nothing but comments. -/
def parseLine (ln : ℕ) (line : List Char) :
    Option GCodeBlock × List (ℕ × PErr) × List (ℕ × PWarn) :=
  let code := removeComments line
  if code.isEmpty then (none, [], [])
  else
    let block0 : GCodeBlock :=
      { lineNumber := ln, original := String.mk line, code := String.mk code }
    let acc := (wordsOf code).foldl (processWord ln) { block := block0 }
    let (b2, errs2) := validateBlock acc.block
    (some b2, acc.errors ++ errs2, acc.warnings)

/-- Result of `parse` (the fields the claims mention; the program-level
pass `validateProgram` of the source appends further warnings only and
never records errors or alters blocks, so it is omitted). -/
structure ParsedProgram where
  blocks : List GCodeBlock
  errors : List (ℕ × PErr)
  warnings : List (ℕ × PWarn)
deriving DecidableEq, Repr

/-- The per-line loop of `parse`: line numbers are 1-based, blank lines
and lines starting with `;` or `(` are skipped before parsing. -/
def parseGo : ℕ → List (List Char) → ParsedProgram
  | _, [] => { blocks := [], errors := [], warnings := [] }
  | i, l :: rest =>
    let line := trimChars l
    let hereSkip := line.isEmpty ||
      (match line with
       | ';' :: _ => true
       | '(' :: _ => true
       | _ => false)
    let restRes := parseGo (i + 1) rest
    if hereSkip then restRes
    else
      match parseLine i line with
      | (none, es, ws) =>
        { restRes with errors := es ++ restRes.errors, warnings := ws ++ restRes.warnings }
      | (some b, es, ws) =>
        { blocks := b :: restRes.blocks, errors := es ++ restRes.errors,
          warnings := ws ++ restRes.warnings }

/-- `parse` of the source (blocks, errors and warnings). -/
def parse (gcode : String) : ParsedProgram :=
  parseGo 1 (splitOnChar (Char.ofNat 10) gcode.data)

end GCodeParser

namespace GCodeParser

/-- Axis travel limit. -/
structure AxisLimit where
  lo : ℚ
  hi : ℚ
deriving DecidableEq, Repr

/-- `MachineLimits` of the source. -/
structure MachineLimits where
  maxFeedRate : ℚ
  maxSpindleSpeed : ℚ
  xLim : AxisLimit
  yLim : AxisLimit
  zLim : AxisLimit
deriving DecidableEq, Repr

/-- The controller default machine limits (feed 3000, spindle 10000,
travel = the default soft limits). -/
def defaultMachineLimits : MachineLimits :=
  { maxFeedRate := 3000, maxSpindleSpeed := 10000,
    xLim := ⟨0, 300⟩, yLim := ⟨0, 300⟩, zLim := ⟨0, 100⟩ }

/-- Issue tags of `checkSafety`. -/
inductive IssueType where
  | feedRateExceeded : IssueType
  | spindleSpeedExceeded : IssueType
  | travelLimitExceeded : IssueType
deriving DecidableEq, Repr

/-- An issue row (line and kind; the message carries the same data). -/
structure Issue where
  line : ℕ
  kind : IssueType
deriving DecidableEq, Repr

/-- Warning tags of `checkSafety`. -/
inductive SWarnType where
  | rapidDownwardMove : SWarnType
  | spindleStart : SWarnType
deriving DecidableEq, Repr

/-- A warning row of `checkSafety`. -/
structure SWarn where
  line : ℕ
  kind : SWarnType
deriving DecidableEq, Repr

/-- `SafetyCheckResult` of the source. -/
structure SafetyCheckResult where
  safe : Bool
  issues : List Issue
  warnings : List SWarn
  maxFeedRate : ℚ
  maxSpindleSpeed : ℚ
  travelLimitsExceeded : Bool
deriving DecidableEq, Repr

/-- Travel limit looked up by lower-case axis key (`a`,`b`,`c` have no
limit entry and are skipped). -/
def limitFor (ml : MachineLimits) (axis : Char) : Option AxisLimit :=
  if axis = 'x' then some ml.xLim
  else if axis = 'y' then some ml.yLim
  else if axis = 'z' then some ml.zLim
  else none

/-- The JavaScript guard `v && v > b` on an optional field. -/
def truthyGt (v : Option JsNum) (b : ℚ) : Bool :=
  match v with
  | some (.num q) => q != 0 && b < q
  | _ => false

/-- Value extracted when the `truthyGt` guard held. -/
def numOf (v : Option JsNum) : ℚ :=
  match v with
  | some (.num q) => q
  | _ => 0

/-- Per-block body of the `checkSafety` loop, in source order: feed
issue, feed maximum, spindle issue, spindle maximum, per-coordinate
travel issues, rapid-descent warning, spindle-start warning. -/
def checkBlock (ml : MachineLimits) (r : SafetyCheckResult) (b : GCodeBlock) :
    SafetyCheckResult :=
  let r :=
    if truthyGt b.feedRate ml.maxFeedRate then
      { r with issues := r.issues ++ [⟨b.lineNumber, .feedRateExceeded⟩], safe := false }
    else r
  let r :=
    if truthyGt b.feedRate r.maxFeedRate then { r with maxFeedRate := numOf b.feedRate }
    else r
  let r :=
    if truthyGt b.spindleSpeed ml.maxSpindleSpeed then
      { r with issues := r.issues ++ [⟨b.lineNumber, .spindleSpeedExceeded⟩], safe := false }
    else r
  let r :=
    if truthyGt b.spindleSpeed r.maxSpindleSpeed then
      { r with maxSpindleSpeed := numOf b.spindleSpeed }
    else r
  let r := b.coordinates.foldl
    (fun r kv =>
      match limitFor ml kv.1, kv.2 with
      | some lim, .num q =>
        if q < lim.lo || lim.hi < q then
          { r with issues := r.issues ++ [⟨b.lineNumber, .travelLimitExceeded⟩],
                   safe := false, travelLimitsExceeded := true }
        else r
      | _, _ => r) r
  let r :=
    if b.gCode == some (JsNum.num 0) &&
        (match b.coordinates.lookup 'z' with
         | some (.num q) => q != 0 && q < 0
         | _ => false) then
      { r with warnings := r.warnings ++ [⟨b.lineNumber, .rapidDownwardMove⟩] }
    else r
  if b.mCode == some (JsNum.num 3) || b.mCode == some (JsNum.num 4) then
    { r with warnings := r.warnings ++ [⟨b.lineNumber, .spindleStart⟩] }
  else r

/-- `checkSafety` of the source. -/
def checkSafety (blocks : List GCodeBlock) (ml : MachineLimits) : SafetyCheckResult :=
  blocks.foldl (checkBlock ml)
    { safe := true, issues := [], warnings := [], maxFeedRate := 0,
      maxSpindleSpeed := 0, travelLimitsExceeded := false }

/-- Linear-move test `gCode === 0 || gCode === 1` of `optimize`. -/
def isG01 (b : GCodeBlock) : Bool :=
  b.gCode == some (JsNum.num 0) || b.gCode == some (JsNum.num 1)

/-- The modal-group agreement test of `optimize`: every group of the new
block must be strictly equal in the last block. -/
def modalAgree (b lb : GCodeBlock) : Bool :=
  b.modalGroups.all
    (fun kv =>
      match lb.modalGroups.lookup kv.1 with
      | some v2 => kv.2 == v2
      | none => false)

/-- The full coalescing condition of `optimize` for a new valid block
against the tracked last block. -/
def mergeCond (lb b : GCodeBlock) : Bool :=
  isG01 b && isG01 lb &&
  JsNum.strictEqb b.feedRate lb.feedRate &&
  JsNum.strictEqb b.spindleSpeed lb.spindleSpeed &&
  modalAgree b lb

/-- The in-place merge of `optimize`: coordinate spread (later block
wins per axis) and concatenated originals. -/
def mergeBlocks (lb b : GCodeBlock) : GCodeBlock :=
  { lb with
    coordinates := b.coordinates.foldl (fun acc kv => assocUpsert kv.1 kv.2 acc) lb.coordinates
    original := lb.original ++ "\n" ++ b.original }

/-- The `optimize` loop.  `lastIdx` is the position in the accumulator
of the object the source variable `lastBlock` aliases; a merge mutates
that element in place and, notably, invalid blocks are appended without
retargeting `lastBlock`. -/
def optimizeGo (acc : List GCodeBlock) (lastIdx : Option ℕ) :
    List GCodeBlock → List GCodeBlock
  | [] => acc
  | b :: rest =>
    if !b.isValid then optimizeGo (acc ++ [b]) lastIdx rest
    else
      match lastIdx with
      | some i =>
        match acc[i]? with
        | some lb =>
          if mergeCond lb b then optimizeGo (acc.set i (mergeBlocks lb b)) lastIdx rest
          else optimizeGo (acc ++ [b]) (some acc.length) rest
        | none => optimizeGo (acc ++ [b]) (some acc.length) rest
      | none => optimizeGo (acc ++ [b]) (some acc.length) rest

/-- `optimize` of the source, as the pure function from the input block
list to the output block list. -/
def optimize (blocks : List GCodeBlock) : List GCodeBlock :=
  optimizeGo [] none blocks

/-- No-coalescing predicate: walking the list as `optimize` does (with
the given tracked last valid block), no valid block satisfies the
coalescing condition against its predecessor. -/
def noCoalesce : Option GCodeBlock → List GCodeBlock → Bool
  | _, [] => true
  | last?, b :: rest =>
    if !b.isValid then noCoalesce last? rest
    else
      match last? with
      | some lb => !mergeCond lb b && noCoalesce (some b) rest
      | none => noCoalesce (some b) rest

end GCodeParser

/-! ## ProbingSystem (src `ProbingSystem.ts`) -/

namespace ProbingSystem

/-- JavaScript `parseFloat(v.toFixed(3))`: rounding to three decimals,
ties picking the larger candidate. -/
def round3 (q : ℚ) : ℚ := ((⌊q * 1000 + 1 / 2⌋ : ℤ) : ℚ) / 1000

/-- Offsets visited by the loop `for (v = 0; v <= size; v += step)` in
the rational idealisation.  For positive step the loop visits exactly
the multiples of `step` up to `size`; for `step <= 0` the source loop
would not terminate, but `preGridProbeSafetyCheck` throws on such input
before the loop runs, so that case is unreachable (here: empty). -/
def axisOffsets (size step : ℚ) : List ℚ :=
  if 0 < step ∧ 0 ≤ size then
    (List.range (⌊size / step⌋.toNat + 1)).map (fun k : ℕ => (k : ℚ) * step)
  else []

/-- `calculateGridPoints` of the source: outer loop over y, inner over
x, emitting `(startX + x, startY + y)` rounded to three decimals, with
`startX = -gridX/2`, `startY = -gridY/2`. -/
def calculateGridPoints (gx gy step : ℚ) : List (ℚ × ℚ) :=
  (axisOffsets gy step).flatMap
    (fun dy =>
      (axisOffsets gx step).map
        (fun dx => (round3 (-gx / 2 + dx), round3 (-gy / 2 + dy))))

end ProbingSystem

/-! ## JobManager (`resumeAfterCrash`, `executeJob`, preamble) -/

namespace JobManager

/-- The loaded job data used by execution: the block code lines, the
user pre-job commands from the job options, and `totalLines` (set to
the block count by `loadJob`). -/
structure JobModel where
  blocks : List String
  preJobCommands : List String := []
  totalLines : ℕ
deriving DecidableEq, Repr

/-- `sendPreJobCommands` of the source: the fixed preamble followed by
the user pre-job commands. -/
def jobPreamble (j : JobModel) : List String :=
  ["G0 Z20 F500", "G90", "G21", "G92 X0 Y0 Z0"] ++ j.preJobCommands

/-- Command trace of `executeJob(job, startIndex)` on the unobstructed
path (no pause, stop or send failure): the preamble exactly when
`startIndex === 0`, then the codes of `blocks.slice(startIndex)`. -/
def executeJobCommands (j : JobModel) (startIndex : ℕ) : List String :=
  (if startIndex = 0 then jobPreamble j else []) ++ j.blocks.drop startIndex

/-- The block index computed by `resumeAfterCrash`:
`Math.floor((progress || 0) / 100 * totalLines)`. -/
def resumeStartIndex (p : ℚ) (totalLines : ℕ) : ℕ :=
  (⌊p / 100 * (totalLines : ℚ)⌋).toNat

/-- `resumeAfterCrash` of the source, reduced to its execution effect:
the crash position reports the stored progress percentage, execution
restarts at the estimated index via `executeJobFromIndex`, which calls
`executeJob(job, startIndex)`. -/
def resumeAfterCrashRun (j : JobModel) (p : ℚ) : ℕ × List String :=
  let i := resumeStartIndex p j.totalLines
  (i, executeJobCommands j i)

end JobManager

/-! ## CommandManager queue clearing and `emergencyStop` -/

namespace CommandManager

/-- Outcome of `emergencyStop`: whether it threw, the queue afterwards,
the rejections delivered to pending callers (command text and error
message) and the events emitted. -/
structure StopOutcome where
  threw : Bool
  queueAfter : List String
  rejected : List (String × String)
  events : List String
deriving DecidableEq, Repr

/-- `CommandManager.clear` of the source: every queued item (waiting or
in flight) is rejected with `Queue cleared` and the queue is emptied. -/
def clear (queue : List String) : List String × List (String × String) :=
  ([], queue.map (fun c => (c, "Queue cleared")))

/-- `emergencyStop` of the source.  `sendFails` states whether the
transport write of the `0x18` byte rejects.  On success the queue is
cleared (rejecting every pending command) and the event is emitted; on
failure the catch block only emits the event, so the queue survives.
Neither path rethrows. -/
def emergencyStop (queue : List String) (sendFails : Bool) : StopOutcome :=
  if sendFails then
    { threw := false, queueAfter := queue, rejected := [], events := ["emergencyStop"] }
  else
    let (q2, rej) := clear queue
    { threw := false, queueAfter := q2, rejected := rej, events := ["emergencyStop"] }

end CommandManager


/-! ## Claim theorems -/

unseal Rat.add Rat.mul Rat.inv Rat.sub Rat.ofScientific in
/-- C2: status decoding at the specification's example line.  The main
controller's `parseGrblStatus` has no regex for an `F:` tail without a
`WPos` field, so it throws (`none`) on `<Idle|MPos:1.5,-2.0,3.25|F:0>`
(first conjunct), and also on the line its own repository test feeds it
(third conjunct); the legacy revision's parser returns state `Idle`,
position `(1.5, -2.0, 3.25)` and feed `0` exactly as the claim states
(second conjunct), and tolerates the `FS` tail as well (fourth
conjunct). -/
theorem C2_status_decode_evaluation :
    Codec.parseGrblStatus "<Idle|MPos:1.5,-2.0,3.25|F:0>" = none ∧
    Codec.parseGrblStatusLegacy "<Idle|MPos:1.5,-2.0,3.25|F:0>" =
      some { state := "Idle".data, x := JsNum.num (1.5 : ℚ), y := JsNum.num (-2 : ℚ),
             z := JsNum.num (3.25 : ℚ), feed := some (JsNum.num 0) } ∧
    Codec.parseGrblStatus "<Idle|MPos:10.000,20.000,30.000|F:100>ok" = none ∧
    Codec.parseGrblStatusLegacy "<Idle|MPos:1.5,-2.0,3.25|FS:7,200>" =
      some { state := "Idle".data, x := JsNum.num (1.5 : ℚ), y := JsNum.num (-2 : ℚ),
             z := JsNum.num (3.25 : ℚ), feed := none } := by
  refine ⟨?_, ?_, ?_, ?_⟩
  all_goals decide

unseal Rat.add Rat.mul Rat.inv Rat.sub Rat.ofScientific in
/-- C6: the parser records no error for the probing line `G38.2` and
leaves its block valid: `parseInt` truncates the G word to 38, so the
`block.gCode === 38.2` guard of `validateBlock` can never hold
(conjuncts one to three); likewise a `G2` block without endpoint
coordinates (`G2 R5`) records no error because the endpoint guard
`!block.coordinates` is false on the initialised object (conjuncts four
and five), both against the claimed validation rules. -/
theorem C6_block_validation_evaluation :
    (GCodeParser.parse "G38.2").errors = [] ∧
    ((GCodeParser.parse "G38.2").blocks.map (fun b => b.isValid)) = [true] ∧
    ((GCodeParser.parse "G38.2").blocks.map (fun b => b.gCode)) = [some (JsNum.num 38)] ∧
    (GCodeParser.parse "G2 R5").errors = [] ∧
    ((GCodeParser.parse "G2 R5").blocks.map (fun b => b.isValid)) = [true] := by
  refine ⟨?_, ?_, ?_, ?_, ?_⟩
  all_goals decide

/-- C4 counterexample: when the transport write of the `0x18` byte
rejects, `emergencyStop` still completes without throwing but the catch
block never clears the queue, so a waiting command survives and nobody
receives a cancellation: the queue length afterwards is 1, not 0. -/
theorem C4_emergency_stop_counterexample :
    (CommandManager.emergencyStop ["G1 X5"] true).threw = false ∧
    (CommandManager.emergencyStop ["G1 X5"] true).queueAfter.length = 1 ∧
    (CommandManager.emergencyStop ["G1 X5"] true).rejected = [] := by
  refine ⟨rfl, rfl, rfl⟩

/-- C4 amended: `emergencyStop` never throws on either path; when the
transport write succeeds the queue is emptied and every previously
pending command (waiting or in flight) is rejected with the
cancellation error `Queue cleared`; when the write fails the queue is
left untouched and only the event is emitted. -/
theorem C4_emergency_stop_behaviour :
    (∀ (q : List String) (b : Bool), (CommandManager.emergencyStop q b).threw = false) ∧
    (∀ q : List String,
      (CommandManager.emergencyStop q false).queueAfter = [] ∧
      (CommandManager.emergencyStop q false).rejected =
        q.map (fun c => (c, "Queue cleared"))) ∧
    (∀ q : List String, (CommandManager.emergencyStop q true).queueAfter = q) ∧
    (∀ (q : List String) (b : Bool),
      (CommandManager.emergencyStop q b).events = ["emergencyStop"]) := by
  refine ⟨fun q b => ?_, fun q => ⟨rfl, rfl⟩, fun q => rfl, fun q b => ?_⟩
  all_goals cases b <;> rfl

unseal Rat.add Rat.mul Rat.inv Rat.sub Rat.ofScientific in
/-- C8 counterexample: with grid 10 by 10 and step 20 (step larger than
both dimensions) exactly one point is probed, but it is the corner
`(-5, -5)` = `(-gridX/2, -gridY/2)`, not the centre `(0, 0)` of the
origin-centred grid.  Moreover the emitted coordinates are rounded to
three decimals, so for grid 0.0002 the single point is `(0, 0)` rather
than the exact `(-0.0001, -0.0001)` of the claimed formula. -/
theorem C8_grid_centre_counterexample :
    ProbingSystem.calculateGridPoints 10 10 20 = [(-5, -5)] ∧
    ((-5 : ℚ), (-5 : ℚ)) ≠ ((0 : ℚ), (0 : ℚ)) ∧
    ProbingSystem.calculateGridPoints (1/5000) (1/5000) 1 = [(0, 0)] ∧
    (0 : ℚ) ≠ -(1/5000 : ℚ) / 2 := by
  refine ⟨?_, ?_, ?_, ?_⟩
  all_goals decide

unseal Rat.add Rat.mul Rat.inv Rat.sub Rat.ofScientific in
/-- C1 counterexample: `G28 X10` is not a G0/G1/G2/G3 motion line (its
first word is `G28`) and not a jog line, and it is accepted by the
validator, yet sending it from the initial state moves the expected
position to `(10, 0, 0)`: `calculateExpectedPositionChange` classifies
commands by the two-character text prefix `G2`, which `G28` shares. -/
theorem C1_other_command_counterexample :
    Controller.specIsMotionLine "G28 X10" = false ∧
    "$J=".data.isPrefixOf (upperChars "G28 X10") = false ∧
    (SafetySystem.validateCommand "G28 X10").isValid = true ∧
    Controller.sendCommandStep Controller.initState "G28 X10" =
      some { mode := .G90, ex := JsNum.num 10, ey := JsNum.num 0, ez := JsNum.num 0 } ∧
    Controller.initState.ex = JsNum.num 0 ∧ JsNum.num (10 : ℚ) ≠ JsNum.num 0 := by
  refine ⟨?_, ?_, ?_, ?_, ?_, ?_⟩
  all_goals decide

unseal Rat.add Rat.mul Rat.inv Rat.sub Rat.ofScientific in
/-- C3 counterexample: the jog line `$J=G91 X10000 F100` is accepted by
the validator (feed 100 is under the jog cap and nothing else is
checked), although its parsed X delta is 10000, so the projected
position from any in-envelope current position — in particular from the
origin, `0 + 10000` — exits the x soft limit of 300. -/
theorem C3_jog_soft_limit_counterexample :
    (SafetySystem.validateCommand "$J=G91 X10000 F100").isValid = true ∧
    (SafetySystem.jogParse (trimUpper "$J=G91 X10000 F100")).x = JsNum.num 10000 ∧
    ¬ ((0 : ℚ) + 10000 ≤ SafetySystem.xMaxL) := by
  refine ⟨?_, ?_, ?_⟩
  all_goals decide

unseal Rat.add Rat.mul Rat.inv Rat.sub Rat.ofScientific in
/-- C7 counterexample: on the two-block program `G1 X500` then
`G1 X10`, coalescing merges the second X over the first, erasing the
out-of-limit X500 move: the optimised blocks pass `checkSafety` while
the original blocks fail it, so the safety outcome is not
optimisation-invariant. -/
theorem C7_optimize_safety_counterexample :
    (GCodeParser.checkSafety
      (GCodeParser.optimize (GCodeParser.parse "G1 X500\nG1 X10").blocks)
      GCodeParser.defaultMachineLimits).safe = true ∧
    (GCodeParser.checkSafety (GCodeParser.parse "G1 X500\nG1 X10").blocks
      GCodeParser.defaultMachineLimits).safe = false := by
  refine ⟨?_, ?_⟩
  all_goals decide

/-! ### Helper lemmas -/

/-- An accepted command's resulting state is `stepCore`. -/
theorem sendCommandStep_some {st st2 : Controller.CtrlState} {cmd : String}
    (h : Controller.sendCommandStep st cmd = some st2) :
    st2 = Controller.stepCore st cmd := by
  unfold Controller.sendCommandStep at h
  split at h
  · exact (Option.some.injEq _ _ ▸ h).symm
  · exact absurd h (by simp)

/-- Every branch of `stepCore` installs the tracked mode computed by
`modeAfter`. -/
theorem stepCore_mode (st : Controller.CtrlState) (cmd : String) :
    (Controller.stepCore st cmd).mode = Controller.modeAfter st.mode (upperChars cmd) := by
  unfold Controller.stepCore
  cases h : Controller.calculateExpectedPositionChange cmd with
  | none => rfl
  | some ch =>
    simp only
    split
    · rfl
    · split <;> rfl

/-- `modeAfter` in the order the claim states it: `G91` wins over
`G90`, and neither leaves the mode unchanged. -/
theorem modeAfter_eq (m : Controller.Mode) (u : List Char) :
    Controller.modeAfter m u =
      (if containsSeg "G91".data u then Controller.Mode.G91
       else if containsSeg "G90".data u then Controller.Mode.G90
       else m) := by
  unfold Controller.modeAfter
  by_cases h91 : containsSeg "G91".data u <;> by_cases h90 : containsSeg "G90".data u <;>
    simp [h91, h90]

unseal Rat.add Rat.mul Rat.inv Rat.sub Rat.ofScientific in
/-- C10: the controller tracks the modal distance mode by substring
search on the upper-cased command text of every accepted command, `G91`
taking precedence over `G90` and other commands leaving the mode alone
(first conjunct); in particular a jog leaves the controller in
incremental mode, so a following `G1 X5` is accounted additively
(expected x moves 10 to 15) until a `G90` command restores absolute
mode (remaining conjuncts). -/
theorem C10_modal_mode_tracking :
    (∀ (st st2 : Controller.CtrlState) (cmd : String),
        Controller.sendCommandStep st cmd = some st2 →
        st2.mode =
          (if containsSeg "G91".data (upperChars cmd) then Controller.Mode.G91
           else if containsSeg "G90".data (upperChars cmd) then Controller.Mode.G90
           else st.mode)) ∧
    Controller.sendCommandStep Controller.initState "$J=G91 X10 F500" =
      some { mode := .G91, ex := JsNum.num 10, ey := JsNum.num 0, ez := JsNum.num 0 } ∧
    Controller.sendCommandStep
        { mode := .G91, ex := JsNum.num 10, ey := JsNum.num 0, ez := JsNum.num 0 } "G1 X5" =
      some { mode := .G91, ex := JsNum.num 15, ey := JsNum.num 0, ez := JsNum.num 0 } ∧
    Controller.sendCommandStep
        { mode := .G91, ex := JsNum.num 15, ey := JsNum.num 0, ez := JsNum.num 0 } "G90" =
      some { mode := .G90, ex := JsNum.num 15, ey := JsNum.num 0, ez := JsNum.num 0 } := by
  refine ⟨fun st st2 cmd h => ?_, by decide, by decide, by decide⟩
  rw [sendCommandStep_some h, stepCore_mode, modeAfter_eq]

/-- C10 witness: the first conjunct applied to the concrete command
`G21`, which names neither mode, from the initial state. -/
theorem C10_modal_mode_tracking_witness :
    ({ mode := .G90, ex := JsNum.num 0, ey := JsNum.num 0,
       ez := JsNum.num 0 } : Controller.CtrlState).mode =
      (if containsSeg "G91".data (upperChars "G21") then Controller.Mode.G91
       else if containsSeg "G90".data (upperChars "G21") then Controller.Mode.G90
       else Controller.initState.mode) :=
  C10_modal_mode_tracking.1 Controller.initState _ "G21" (by decide)

unseal Rat.add Rat.mul Rat.inv Rat.sub Rat.ofScientific in
/-- C1 amended: `sendCommand` classifies the accepted command by text
prefix of its upper-cased form, not by its first word.  A command
starting with `G0`/`G1`/`G2`/`G3` (which also captures G28, G38.x, G10,
G17-G21 and so on) with at least one `X`/`Y`/`Z` field has the
specified fields replace the expected-position components in absolute
mode and add in incremental mode; a `$J=` command always adds; a
command with no extracted field, or matching neither prefix, leaves the
expected position unchanged.  The jog example holds as claimed:
`jog(x 10, y -5, feed 1000)` sends `$J=G91 X10 Y-5 F1000` and moves the
expected position from the origin to `(10, -5, 0)`. -/
theorem C1_expected_position_accounting :
    (∀ (st st2 : Controller.CtrlState) (cmd : String),
      Controller.sendCommandStep st cmd = some st2 →
      ((SafetySystem.startsG0123 (upperChars cmd) = false ∧
          "$J=".data.isPrefixOf (upperChars cmd) = false →
          st2.ex = st.ex ∧ st2.ey = st.ey ∧ st2.ez = st.ez) ∧
       ((Controller.extractAxes (upperChars cmd)).hasAny = false →
          st2.ex = st.ex ∧ st2.ey = st.ey ∧ st2.ez = st.ez) ∧
       ("$J=".data.isPrefixOf (upperChars cmd) = true →
          (Controller.extractAxes (upperChars cmd)).hasAny = true →
          st2.ex = st.ex.addQ (JsNum.orZero (Controller.extractAxes (upperChars cmd)).x) ∧
          st2.ey = st.ey.addQ (JsNum.orZero (Controller.extractAxes (upperChars cmd)).y) ∧
          st2.ez = st.ez.addQ (JsNum.orZero (Controller.extractAxes (upperChars cmd)).z)) ∧
       ("$J=".data.isPrefixOf (upperChars cmd) = false →
          SafetySystem.startsG0123 (upperChars cmd) = true →
          (Controller.extractAxes (upperChars cmd)).hasAny = true →
          (st2.mode = .G90 →
            st2.ex = (Controller.extractAxes (upperChars cmd)).x.getD st.ex ∧
            st2.ey = (Controller.extractAxes (upperChars cmd)).y.getD st.ey ∧
            st2.ez = (Controller.extractAxes (upperChars cmd)).z.getD st.ez) ∧
          (st2.mode = .G91 →
            st2.ex = st.ex.addQ (JsNum.orZero (Controller.extractAxes (upperChars cmd)).x) ∧
            st2.ey = st.ey.addQ (JsNum.orZero (Controller.extractAxes (upperChars cmd)).y) ∧
            st2.ez = st.ez.addQ (JsNum.orZero (Controller.extractAxes (upperChars cmd)).z))))) ∧
    Controller.buildJogCommand (some 10) (some (-5)) none 1000 = some "$J=G91 X10 Y-5 F1000" ∧
    Controller.jogStep Controller.initState (some 10) (some (-5)) none 1000 =
      some { mode := .G91, ex := JsNum.num 10, ey := JsNum.num (-5), ez := JsNum.num 0 } := by
  refine ⟨fun st st2 cmd h => ?_, by decide, by decide⟩
  rw [sendCommandStep_some h]
  by_cases hG : SafetySystem.startsG0123 (upperChars cmd) <;>
    by_cases hJ : "$J=".data.isPrefixOf (upperChars cmd) <;>
    by_cases hA : (Controller.extractAxes (upperChars cmd)).hasAny <;>
    by_cases hM : Controller.modeAfter st.mode (upperChars cmd) = .G90 <;>
    simp only [Controller.stepCore, Controller.calculateExpectedPositionChange, hG, hJ, hA, hM,
      Bool.false_or, Bool.or_false, Bool.true_or, Bool.or_true, if_true, if_false,
      Bool.false_eq_true, Bool.true_eq_false, ite_true, ite_false,
      Controller.applyAdd, Controller.applyAbs] <;>
    (refine ⟨fun hc => ?_, fun hc => ?_, fun hc1 hc2 => ?_, fun hc1 hc2 => ?_⟩ <;> simp_all)

/-- C1 witness: the absolute-mode replacement case of the accounting
theorem at the concrete accepted command `G1 X7` from the initial
state. -/
theorem C1_expected_position_accounting_witness :
    ({ mode := .G90, ex := JsNum.num 7, ey := JsNum.num 0,
       ez := JsNum.num 0 } : Controller.CtrlState).ex =
        (Controller.extractAxes (upperChars "G1 X7")).x.getD Controller.initState.ex ∧
    ({ mode := .G90, ex := JsNum.num 7, ey := JsNum.num 0,
       ez := JsNum.num 0 } : Controller.CtrlState).ey =
        (Controller.extractAxes (upperChars "G1 X7")).y.getD Controller.initState.ey ∧
    ({ mode := .G90, ex := JsNum.num 7, ey := JsNum.num 0,
       ez := JsNum.num 0 } : Controller.CtrlState).ez =
        (Controller.extractAxes (upperChars "G1 X7")).z.getD Controller.initState.ez :=
  ((C1_expected_position_accounting.1 Controller.initState
      { mode := .G90, ex := JsNum.num 7, ey := JsNum.num 0, ez := JsNum.num 0 } "G1 X7"
      (by decide)).2.2.2 (by decide) (by decide) (by decide)).1 rfl

/-- A `$J=`-prefixed trimmed command exposes its first three
characters. -/
theorem jogShape {cs : List Char} (h : "$J=".data.isPrefixOf cs = true) :
    ∃ t, cs = '$' :: 'J' :: '=' :: t := by
  have hd : "$J=".data = ['$', 'J', '='] := rfl
  rw [hd] at h
  match cs, h with
  | '$' :: 'J' :: '=' :: t, _ => exact ⟨t, rfl⟩
  | [], h => simp [List.isPrefixOf] at h
  | c :: cs, h =>
    simp only [List.isPrefixOf, Bool.and_eq_true, beq_iff_eq] at h
    obtain ⟨rfl, h⟩ := h
    match cs, h with
    | [], h => simp [List.isPrefixOf] at h
    | c2 :: cs, h =>
      simp only [List.isPrefixOf, Bool.and_eq_true, beq_iff_eq] at h
      obtain ⟨rfl, h⟩ := h
      match cs, h with
      | [], h => simp [List.isPrefixOf] at h
      | c3 :: t, h =>
        simp only [List.isPrefixOf, Bool.and_eq_true, beq_iff_eq] at h
        obtain ⟨rfl, -⟩ := h
        exact ⟨t, rfl⟩

/-- C3 amended: for every `$J=` line the validator is Invalid exactly
when the `F` feed parsed from the space-separated jog fields exceeds
`max_jog_rate` (1000); no soft-limit or projected-position condition is
checked (the validator does not even receive the current position). -/
theorem C3_jog_validation_feed_only (cmd : String)
    (hJ : "$J=".data.isPrefixOf (trimUpper cmd) = true) :
    (SafetySystem.validateCommand cmd).isValid = false ↔
      (SafetySystem.jogParse (trimUpper cmd)).feed.gtQ SafetySystem.maxJogRateL = true := by
  obtain ⟨t, ht⟩ := jogShape hJ
  have h1 : (trimUpper cmd).isEmpty = false := by rw [ht]; rfl
  have h2 : SafetySystem.unsafeCommandList.any
      (fun u => u.isPrefixOf (trimUpper cmd)) = false := by
    rw [ht]; simp [SafetySystem.unsafeCommandList, List.isPrefixOf]
  have h3 : SafetySystem.startsG0123 (trimUpper cmd) = false := by
    rw [ht]; simp [SafetySystem.startsG0123, List.isPrefixOf]
  simp only [SafetySystem.validateCommand, h1, h2, h3, hJ, Bool.false_eq_true, if_false,
    if_true, ite_true, ite_false]
  unfold SafetySystem.validateJogCommand
  by_cases hgt : (SafetySystem.jogParse (trimUpper cmd)).feed.gtQ SafetySystem.maxJogRateL <;>
    simp [hgt]

/-- C3 witness: the feed-only jog validation applied to the concrete
line `$J=G91 X10 F2000` (the repository's own test case), whose parsed
feed 2000 exceeds the jog cap. -/
theorem C3_jog_validation_feed_only_witness :
    (SafetySystem.validateCommand "$J=G91 X10 F2000").isValid = false ↔
      (SafetySystem.jogParse (trimUpper "$J=G91 X10 F2000")).feed.gtQ
        SafetySystem.maxJogRateL = true :=
  C3_jog_validation_feed_only ("$J=G91 X10 F2000") (by decide)

/-- C9: `resumeAfterCrash` restarts from the estimated block index
`floor(progress / 100 * total)` where total is the loaded block count,
and the fixed pre-job preamble plus user pre-job commands is sent if
and only if that index is 0 — in particular it is not replayed whenever
at least one block is estimated as already executed. -/
theorem C9_resume_start_index_and_preamble (j : JobManager.JobModel) (p : ℚ)
    (ht : j.totalLines = j.blocks.length) :
    (JobManager.resumeAfterCrashRun j p).1 = (⌊p / 100 * (j.blocks.length : ℚ)⌋).toNat ∧
    (JobManager.resumeAfterCrashRun j p).2 =
      (if (⌊p / 100 * (j.blocks.length : ℚ)⌋).toNat = 0 then JobManager.jobPreamble j
       else []) ++ j.blocks.drop (⌊p / 100 * (j.blocks.length : ℚ)⌋).toNat ∧
    ((⌊p / 100 * (j.blocks.length : ℚ)⌋).toNat ≠ 0 →
      (JobManager.resumeAfterCrashRun j p).2 =
        j.blocks.drop (⌊p / 100 * (j.blocks.length : ℚ)⌋).toNat) := by
  refine ⟨?_, ?_, fun hne => ?_⟩
  · simp [JobManager.resumeAfterCrashRun, JobManager.resumeStartIndex, ht]
  · simp [JobManager.resumeAfterCrashRun, JobManager.resumeStartIndex,
      JobManager.executeJobCommands, ht]
  · rw [Ne, Int.toNat_eq_zero] at hne
    simp [JobManager.resumeAfterCrashRun, JobManager.resumeStartIndex,
      JobManager.executeJobCommands, ht, hne]

unseal Rat.add Rat.mul Rat.inv Rat.sub Rat.ofScientific in
/-- C9 witness: resuming a three-block job at 50 percent progress
restarts at block index 1 = floor(1.5) and does not replay the
preamble. -/
theorem C9_resume_start_index_and_preamble_witness :
    JobManager.resumeAfterCrashRun
        { blocks := ["G1 X1", "G1 X2", "G1 X3"], preJobCommands := [], totalLines := 3 }
        50 =
      (1, ["G1 X2", "G1 X3"]) := by
  have h := C9_resume_start_index_and_preamble
    { blocks := ["G1 X1", "G1 X2", "G1 X3"], preJobCommands := [], totalLines := 3 } 50 rfl
  exact Prod.ext (h.1.trans (by decide)) ((h.2.1).trans (by decide))

/-- C8 amended: grid probing emits, for each y offset 0, step, ...
up to gridY and each x offset likewise, the point
`(startX + x, startY + y)` rounded to three decimals, with
`startX = -gridX/2`; consequently when the step exceeds both grid
dimensions exactly one point is probed and it lies at the grid corner
`(-gridX/2, -gridY/2)` (rounded), not at the centre. -/
theorem C8_grid_points_formula (gx gy step : ℚ)
    (hgx : 0 < gx) (hgy : 0 < gy) (hs : 0 < step) :
    ProbingSystem.calculateGridPoints gx gy step =
      (List.range (⌊gy / step⌋.toNat + 1)).flatMap (fun j : ℕ =>
        (List.range (⌊gx / step⌋.toNat + 1)).map (fun i : ℕ =>
          (ProbingSystem.round3 (-gx / 2 + (i : ℚ) * step),
           ProbingSystem.round3 (-gy / 2 + (j : ℚ) * step)))) ∧
    (gx < step → gy < step →
      ProbingSystem.calculateGridPoints gx gy step =
        [(ProbingSystem.round3 (-gx / 2), ProbingSystem.round3 (-gy / 2))]) := by
  have hoff : ∀ size : ℚ, 0 < size → ProbingSystem.axisOffsets size step =
      (List.range (⌊size / step⌋.toNat + 1)).map (fun k : ℕ => (k : ℚ) * step) := by
    intro size hsize
    unfold ProbingSystem.axisOffsets
    rw [if_pos ⟨hs, hsize.le⟩]
  have h1 : ProbingSystem.calculateGridPoints gx gy step =
      (List.range (⌊gy / step⌋.toNat + 1)).flatMap (fun j : ℕ =>
        (List.range (⌊gx / step⌋.toNat + 1)).map (fun i : ℕ =>
          (ProbingSystem.round3 (-gx / 2 + (i : ℚ) * step),
           ProbingSystem.round3 (-gy / 2 + (j : ℚ) * step)))) := by
    unfold ProbingSystem.calculateGridPoints
    rw [hoff gy hgy, hoff gx hgx, List.flatMap_map]
    simp only [List.map_map]
    rfl
  refine ⟨h1, fun hx hy => ?_⟩
  have fx : ⌊gx / step⌋ = 0 := by
    rw [Int.floor_eq_zero_iff]
    exact Set.mem_Ico.2 ⟨div_nonneg hgx.le hs.le, (div_lt_one hs).2 hx⟩
  have fy : ⌊gy / step⌋ = 0 := by
    rw [Int.floor_eq_zero_iff]
    exact Set.mem_Ico.2 ⟨div_nonneg hgy.le hs.le, (div_lt_one hs).2 hy⟩
  rw [h1, fx, fy]
  rw [show List.range (Int.toNat 0 + 1) = [0] from rfl]
  simp

unseal Rat.add Rat.mul Rat.inv Rat.sub Rat.ofScientific in
/-- C8 witness: a 4 by 4 grid with step 6 probes the single corner
point `(-2, -2)`. -/
theorem C8_grid_points_formula_witness :
    ProbingSystem.calculateGridPoints 4 4 6 =
      [(ProbingSystem.round3 (-(4 : ℚ) / 2), ProbingSystem.round3 (-(4 : ℚ) / 2))] ∧
    ProbingSystem.calculateGridPoints 4 4 6 = [(-2, -2)] := by
  have h := (C8_grid_points_formula 4 4 6 (by norm_num) (by norm_num) (by norm_num)).2
    (by norm_num) (by norm_num)
  exact ⟨h, h.trans (by decide)⟩

/-- A successful indexed lookup is within bounds. -/
theorem getElemOpt_lt {α : Type} {l : List α} {i : ℕ} {a : α}
    (h : l[i]? = some a) : i < l.length := by
  by_contra hge
  rw [List.getElem?_eq_none (le_of_not_lt hge)] at h
  exact Option.noConfusion h

/-- When the walk meets no coalescing opportunity, the `optimize` loop
appends its remaining input to the accumulator unchanged. -/
theorem optimizeGo_no_coalesce (rest : List GCodeParser.GCodeBlock) :
    ∀ (acc : List GCodeParser.GCodeBlock) (idx : Option ℕ)
      (lb? : Option GCodeParser.GCodeBlock),
      ((idx = none ∧ lb? = none) ∨
        (∃ i lb, idx = some i ∧ lb? = some lb ∧ acc[i]? = some lb)) →
      GCodeParser.noCoalesce lb? rest = true →
      GCodeParser.optimizeGo acc idx rest = acc ++ rest := by
  induction rest with
  | nil =>
    intro acc idx lb? hinv hnc
    simp [GCodeParser.optimizeGo]
  | cons b rest ih =>
    intro acc idx lb? hinv hnc
    by_cases hv : b.isValid
    · rcases hinv with ⟨rfl, rfl⟩ | ⟨i, lb, rfl, rfl, hget⟩
      · simp only [GCodeParser.noCoalesce, hv, Bool.not_true, Bool.false_eq_true,
          if_false, ite_false] at hnc
        simp only [GCodeParser.optimizeGo, hv, Bool.not_true, Bool.false_eq_true,
          if_false, ite_false]
        rw [ih (acc ++ [b]) (some acc.length) (some b)
          (Or.inr ⟨acc.length, b, rfl, rfl, List.getElem?_concat_length acc b⟩) hnc]
        simp
      · simp only [GCodeParser.noCoalesce, hv, Bool.not_true, Bool.false_eq_true,
          if_false, ite_false, Bool.and_eq_true, Bool.not_eq_true] at hnc
        obtain ⟨hm, hrest⟩ := hnc
        have hm2 : GCodeParser.mergeCond lb b = false := by simpa using hm
        simp only [GCodeParser.optimizeGo, hv, Bool.not_true, Bool.false_eq_true,
          if_false, ite_false, hget, hm2]
        rw [ih (acc ++ [b]) (some acc.length) (some b)
          (Or.inr ⟨acc.length, b, rfl, rfl, List.getElem?_concat_length acc b⟩) hrest]
        simp
    · have hv2 : b.isValid = false := by simpa using hv
      simp only [GCodeParser.noCoalesce, hv2, Bool.not_false, if_true, ite_true] at hnc
      simp only [GCodeParser.optimizeGo, hv2, Bool.not_false, if_true, ite_true]
      have hinv2 : ((idx = none ∧ lb? = none) ∨
          (∃ i lb, idx = some i ∧ lb? = some lb ∧ (acc ++ [b])[i]? = some lb)) := by
        rcases hinv with ⟨rfl, rfl⟩ | ⟨i, lb, rfl, rfl, hget⟩
        · exact Or.inl ⟨rfl, rfl⟩
        · exact Or.inr ⟨i, lb, rfl, rfl, by
            rw [List.getElem?_append_left (getElemOpt_lt hget)]; exact hget⟩
      rw [ih (acc ++ [b]) idx lb? hinv2 hnc]
      simp

/-- C7 amended: the `check_safety` outcome is preserved by `optimize`
whenever no two blocks are coalesced during the walk (then the
optimisation is the identity); as the counterexample shows, when a
coalescing does occur the outcome can change, because merging
coordinate overrides can erase an out-of-limit intermediate move. -/
theorem C7_optimize_safety_invariance
    (blocks : List GCodeParser.GCodeBlock) (ml : GCodeParser.MachineLimits)
    (h : GCodeParser.noCoalesce none blocks = true) :
    GCodeParser.checkSafety (GCodeParser.optimize blocks) ml =
      GCodeParser.checkSafety blocks ml := by
  have hid : GCodeParser.optimize blocks = blocks := by
    have := optimizeGo_no_coalesce blocks [] none none (Or.inl ⟨rfl, rfl⟩) h
    simpa [GCodeParser.optimize] using this
  rw [hid]

unseal Rat.add Rat.mul Rat.inv Rat.sub Rat.ofScientific in
/-- C7 witness: the invariance applied to the parsed two-block program
`G0 X10` then `M3 S500`, which offers no coalescing opportunity. -/
theorem C7_optimize_safety_invariance_witness :
    GCodeParser.checkSafety
        (GCodeParser.optimize (GCodeParser.parse "G0 X10\nM3 S500").blocks)
        GCodeParser.defaultMachineLimits =
      GCodeParser.checkSafety (GCodeParser.parse "G0 X10\nM3 S500").blocks
        GCodeParser.defaultMachineLimits :=
  C7_optimize_safety_invariance (GCodeParser.parse "G0 X10\nM3 S500").blocks
    GCodeParser.defaultMachineLimits (by decide)

/-- `checkSoftLimits` on NaN-free coordinates is the conjunction of the
six closed-interval bounds. -/
theorem checkSoftLimits_num (a b c : ℚ) :
    SafetySystem.checkSoftLimits ⟨.num a, .num b, .num c⟩ = true ↔
      (SafetySystem.xMinL ≤ a ∧ a ≤ SafetySystem.xMaxL ∧
       SafetySystem.yMinL ≤ b ∧ b ≤ SafetySystem.yMaxL ∧
       SafetySystem.zMinL ≤ c ∧ c ≤ SafetySystem.zMaxL) := by
  simp [SafetySystem.checkSoftLimits, JsNum.geQ, JsNum.leQ, and_assoc]

/-- A line dispatched as G0/G1/G2/G3 is nonempty. -/
theorem startsG0123_ne_empty {cs : List Char}
    (h : SafetySystem.startsG0123 cs = true) : cs.isEmpty = false := by
  cases cs with
  | nil => simp [SafetySystem.startsG0123, List.isPrefixOf] at h
  | cons c t => rfl

unseal Rat.add Rat.mul Rat.inv Rat.sub Rat.ofScientific in
/-- C5: for every line the validator dispatches as a G0/G1/G2/G3
movement (and that is not an unsafe-command line), with well-formed
numeric fields, the verdict is Invalid exactly when some extracted
coordinate lies outside its closed soft-limit interval or a present F
feed rate exceeds `max_feed_rate` 3000 (first conjunct); the literal
examples of the specification behave as claimed: `G0 X1000 Y1000` is
rejected for the soft limits, `G1 X10 F5000` for the feed cap,
boundary coordinates exactly on the limits are accepted and a
coordinate just below a minimum is rejected (remaining conjuncts). -/
theorem C5_movement_validation :
    (∀ cmd : String,
      SafetySystem.startsG0123 (trimUpper cmd) = true →
      SafetySystem.unsafeCommandList.any
        (fun u => u.isPrefixOf (trimUpper cmd)) = false →
      SafetySystem.coordOf 'X' (trimUpper cmd) ≠ JsNum.nan →
      SafetySystem.coordOf 'Y' (trimUpper cmd) ≠ JsNum.nan →
      SafetySystem.coordOf 'Z' (trimUpper cmd) ≠ JsNum.nan →
      SafetySystem.parseFeedRate (trimUpper cmd) ≠ some JsNum.nan →
      ((SafetySystem.validateCommand cmd).isValid = false ↔
        SafetySystem.specMovementViolation (trimUpper cmd))) ∧
    SafetySystem.validateCommand "G0 X1000 Y1000" =
      { isValid := false, err := some .softLimits, warn := false } ∧
    SafetySystem.validateCommand "G1 X10 F5000" =
      { isValid := false, err := some .feedRate, warn := false } ∧
    (SafetySystem.validateCommand "G0 X300 Y300 Z100").isValid = true ∧
    (SafetySystem.validateCommand "G0 X0 Y0 Z0").isValid = true ∧
    (SafetySystem.validateCommand "G1 X-0.001").isValid = false := by
  refine ⟨fun cmd hG hU hX hY hZ hF => ?_, by decide, by decide, by decide, by decide,
    by decide⟩
  have hne := startsG0123_ne_empty hG
  simp only [SafetySystem.validateCommand, hne, hU, hG, Bool.false_eq_true, if_false,
    if_true, ite_true, ite_false]
  rcases hx : SafetySystem.coordOf 'X' (trimUpper cmd) with _ | qx
  · exact absurd hx hX
  rcases hy : SafetySystem.coordOf 'Y' (trimUpper cmd) with _ | qy
  · exact absurd hy hY
  rcases hz : SafetySystem.coordOf 'Z' (trimUpper cmd) with _ | qz
  · exact absurd hz hZ
  have hcoords : SafetySystem.parseCoordinates (trimUpper cmd) =
      ⟨.num qx, .num qy, .num qz⟩ := by
    simp [SafetySystem.parseCoordinates, hx, hy, hz]
  simp only [SafetySystem.validateMovementCommand, hcoords,
    SafetySystem.specMovementViolation, hx, hy, hz, JsNum.num.injEq]
  by_cases hsl : SafetySystem.checkSoftLimits ⟨.num qx, .num qy, .num qz⟩ = true
  · obtain ⟨b1, b2, b3, b4, b5, b6⟩ := (checkSoftLimits_num qx qy qz).mp hsl
    simp only [hsl, Bool.not_true, Bool.false_eq_true, if_false, ite_false]
    rcases hf : SafetySystem.parseFeedRate (trimUpper cmd) with _ | f
    · refine iff_of_false (by simp) ?_
      rintro ((⟨q, rfl, h | h⟩) | (⟨q, rfl, h | h⟩) | (⟨q, rfl, h | h⟩) | ⟨q, hq, -⟩)
      · exact absurd b1 (not_le.mpr h)
      · exact absurd b2 (not_le.mpr h)
      · exact absurd b3 (not_le.mpr h)
      · exact absurd b4 (not_le.mpr h)
      · exact absurd b5 (not_le.mpr h)
      · exact absurd b6 (not_le.mpr h)
      · exact Option.noConfusion hq
    · rcases f with _ | qf
      · exact absurd hf hF
      by_cases hqf : SafetySystem.maxFeedRateL < qf
      · have hq0 : qf ≠ 0 := by
          have : (0 : ℚ) < SafetySystem.maxFeedRateL := by
            norm_num [SafetySystem.maxFeedRateL]
          exact ne_of_gt (lt_trans this hqf)
        have hcond : (JsNum.truthy (.num qf) && JsNum.gtQ (.num qf)
            SafetySystem.maxFeedRateL) = true := by
          simp [JsNum.truthy, JsNum.gtQ, hqf, hq0]
        refine iff_of_true (by simp [hcond]) ?_
        exact Or.inr (Or.inr (Or.inr ⟨qf, rfl, hqf⟩))
      · have hcond : (JsNum.truthy (.num qf) && JsNum.gtQ (.num qf)
            SafetySystem.maxFeedRateL) = false := by
          simp [JsNum.gtQ, hqf]
        refine iff_of_false (by simp [hcond]) ?_
        rintro ((⟨q, rfl, h | h⟩) | (⟨q, rfl, h | h⟩) | (⟨q, rfl, h | h⟩) | ⟨q, hq, hgt⟩)
        · exact absurd b1 (not_le.mpr h)
        · exact absurd b2 (not_le.mpr h)
        · exact absurd b3 (not_le.mpr h)
        · exact absurd b4 (not_le.mpr h)
        · exact absurd b5 (not_le.mpr h)
        · exact absurd b6 (not_le.mpr h)
        · obtain rfl : qf = q := by simpa using hq
          exact absurd hgt hqf
  · have hsl2 : SafetySystem.checkSoftLimits ⟨.num qx, .num qy, .num qz⟩ = false := by
      simpa using hsl
    have hcon : ¬ (SafetySystem.xMinL ≤ qx ∧ qx ≤ SafetySystem.xMaxL ∧
        SafetySystem.yMinL ≤ qy ∧ qy ≤ SafetySystem.yMaxL ∧
        SafetySystem.zMinL ≤ qz ∧ qz ≤ SafetySystem.zMaxL) := by
      rw [← checkSoftLimits_num]
      simp [hsl2]
    simp only [not_and_or, not_le] at hcon
    refine iff_of_true (by simp [hsl2]) ?_
    rcases hcon with h | h | h | h | h | h
    · exact Or.inl ⟨qx, rfl, Or.inl h⟩
    · exact Or.inl ⟨qx, rfl, Or.inr h⟩
    · exact Or.inr (Or.inl ⟨qy, rfl, Or.inl h⟩)
    · exact Or.inr (Or.inl ⟨qy, rfl, Or.inr h⟩)
    · exact Or.inr (Or.inr (Or.inl ⟨qz, rfl, Or.inl h⟩))
    · exact Or.inr (Or.inr (Or.inl ⟨qz, rfl, Or.inr h⟩))

/-- C5 witness: the movement-validation equivalence applied to the
concrete accepted line `G1 X20 F100`. -/
theorem C5_movement_validation_witness :
    (SafetySystem.validateCommand "G1 X20 F100").isValid = false ↔
      SafetySystem.specMovementViolation (trimUpper "G1 X20 F100") :=
  C5_movement_validation.1 "G1 X20 F100" (by decide) (by decide) (by decide) (by decide)
    (by decide) (by decide)
